import Mathlib

/-!
Shallow embedding of the errprops Go package (errors.go): a fluent API for
setting and querying key/value pairs on errors.  Error values are modelled
by the mutual inductive pair GoErr / PropErr below; the package operations
(From, Get, GetOptional, WithValue, the node methods Get / Cause /
Stacktrace, and the fmt.Formatter protocol) are translated function by
function from the source.
-/

set_option autoImplicit false

namespace Errprops

/-- Model of a Go interface value used as a key or a property value
(keys and values are opaque and compared with Go equality). -/
inductive GoVal : Type where
  | vstr (s : String)
  | vint (n : Int)
deriving DecidableEq, Repr

/-- The two fmt detail flags carried by fmt.State that the package reads:
plus is the result of f.Flag(43) and sharp of f.Flag(35). -/
structure FmtState : Type where
  plus : Bool
  sharp : Bool
deriving DecidableEq, Repr

/-- A single formatting directive as built by formatInner: the flag
characters included in the format string, plus the verb rune. -/
structure FmtSpec : Type where
  plus : Bool
  sharp : Bool
  verb : Char
deriving DecidableEq, Repr

mutual
/-- A Go value of the interface type error.
nilErr is the nil interface value (a type assertion on it always fails).
plain is an error implementing none of the optional capabilities.
ext is an arbitrary third-party error: each Option field records whether the
corresponding capability interface (hasProps, hasCause, hasStacktrace,
fmt.Formatter) is implemented, and if so what its method returns;
a hasProps implementation is modelled as a first-match association list.
prop injects a value of the package PropError interface, which implements
all four capabilities. -/
inductive GoErr : Type where
  | nilErr : GoErr
  | plain (msg : String) : GoErr
  | ext (msg : String) (props : Option (List (GoVal × GoVal)))
      (cause : Option GoErr) (stack : Option (Option Nat))
      (fmtFn : Option (FmtState → Char → String)) : GoErr
  | prop (p : PropErr) : GoErr

/-- The two implementations of the package PropError interface:
base is baseError (struct embedding one wrapped error, possibly nil) and
kv is keyValueError (a pointer to a predecessor PropError plus one
key/value pair), exactly as constructed by From and WithValue. -/
inductive PropErr : Type where
  | base (wrapped : GoErr) : PropErr
  | kv (pred : PropErr) (key : GoVal) (val : GoVal) : PropErr
end

mutual
/-- Structural size of a GoErr, used as a termination measure for the
cause-chain recursion of the free function Get. -/
def GoErr.size : GoErr → Nat
  | .nilErr => 0
  | .plain _ => 1
  | .ext _ _ cause _ _ => 1 + (match cause with | some c => c.size | none => 0)
  | .prop p => 1 + p.size

/-- Structural size of a PropErr. -/
def PropErr.size : PropErr → Nat
  | .base w => 1 + w.size
  | .kv p _ _ => 1 + p.size
end

/-- Whether the dynamic type of the error implements the hasProps
capability interface (the Go type assertion err.(hasProps) succeeds). -/
def GoErr.implementsProps : GoErr → Bool
  | .nilErr => false
  | .plain _ => false
  | .ext _ props _ _ _ => props.isSome
  | .prop _ => true

/-- Whether the dynamic type of the error implements the hasCause
capability interface (the Go type assertion err.(hasCause) succeeds). -/
def GoErr.implementsCause : GoErr → Bool
  | .nilErr => false
  | .plain _ => false
  | .ext _ _ cause _ _ => cause.isSome
  | .prop _ => true

/-- Whether the dynamic type of the error implements hasStacktrace. -/
def GoErr.implementsStack : GoErr → Bool
  | .nilErr => false
  | .plain _ => false
  | .ext _ _ _ stack _ => stack.isSome
  | .prop _ => true

/-- Whether the dynamic type of the error implements fmt.Formatter. -/
def GoErr.implementsFormatter : GoErr → Bool
  | .nilErr => false
  | .plain _ => false
  | .ext _ _ _ _ fmtFn => fmtFn.isSome
  | .prop _ => true

/-- First-match lookup in an association list, modelling a third-party
hasProps implementation backed by a list of pairs; the comparison is Go
interface equality on the key. -/
def assocGet : List (GoVal × GoVal) → GoVal → Option GoVal
  | [], _ => none
  | (k, v) :: rest, key => if key = k then some v else assocGet rest key

mutual
/-- The node-local Get method of an error whose dynamic type implements
hasProps (the method invoked by the expression err.Get(key) after a
successful assertion).  For errors that do not implement hasProps the
value is never consulted and is none. -/
def GoErr.localGet : GoErr → GoVal → Option GoVal
  | .nilErr, _ => none
  | .plain _, _ => none
  | .ext _ props _ _ _, key => match props with
    | some ps => assocGet ps key
    | none => none
  | .prop p, key => p.nodeGet key

/-- Source: baseError.Get and keyValueError.Get.
baseError.Get delegates to the wrapped error when it implements hasProps
and otherwise returns (nil, false); keyValueError.Get returns its own
value when the key matches its own key and otherwise delegates to the
embedded predecessor PropError. -/
def PropErr.nodeGet : PropErr → GoVal → Option GoVal
  | .base w, key => if w.implementsProps then w.localGet key else none
  | .kv p k v, key => if key = k then some v else p.nodeGet key
end

mutual
/-- The value returned by the Cause method of an error whose dynamic type
implements hasCause (nilErr models a nil result).  For errors that do not
implement hasCause the value is never consulted. -/
def GoErr.causeOf : GoErr → GoErr
  | .nilErr => .nilErr
  | .plain _ => .nilErr
  | .ext _ _ cause _ _ => match cause with
    | some c => c
    | none => .nilErr
  | .prop p => p.nodeCause

/-- Source: baseError.Cause (keyValueError promotes the method of its
embedded PropError).  baseError.Cause returns the cause of the wrapped error
when the wrapped error implements hasCause, and nil otherwise. -/
def PropErr.nodeCause : PropErr → GoErr
  | .base w => if w.implementsCause then w.causeOf else .nilErr
  | .kv p _ _ => p.nodeCause
end

mutual
/-- The stack trace returned by the Stacktrace method of an error whose
dynamic type implements hasStacktrace (none models a nil trace).  For
errors that do not implement hasStacktrace the value is never consulted. -/
def GoErr.stackOf : GoErr → Option Nat
  | .nilErr => none
  | .plain _ => none
  | .ext _ _ _ stack _ => match stack with
    | some s => s
    | none => none
  | .prop p => p.nodeStack

/-- Source: baseError.Stacktrace (keyValueError promotes the method of its
embedded PropError).  baseError.Stacktrace returns the stack
trace of the wrapped error when the wrapped error implements hasStacktrace, else nil. -/
def PropErr.nodeStack : PropErr → Option Nat
  | .base w => if w.implementsStack then w.stackOf else none
  | .kv p _ _ => p.nodeStack
end

mutual
/-- The Error method.  The result is none when the call panics: calling
Error on a baseError whose embedded error interface is nil dereferences
nil.  Third-party errors are modelled as returning their stored message. -/
def GoErr.errorMsg : GoErr → Option String
  | .nilErr => none
  | .plain m => some m
  | .ext m _ _ _ _ => some m
  | .prop p => p.errorMsgP

/-- Source: the Error method of baseError is promoted from its embedded
error field, and that of keyValueError from its embedded PropError. -/
def PropErr.errorMsgP : PropErr → Option String
  | .base w => w.errorMsg
  | .kv p _ _ => p.errorMsgP
end

mutual
/-- When the hasCause assertion succeeds, the Cause method returns a
structurally smaller error (the model has no cause cycles, matching the
exclusion of cycle detection in the spec). -/
theorem GoErr.causeOf_size_lt : ∀ e : GoErr, e.implementsCause = true →
    e.causeOf.size < e.size
  | .ext _ _ cause _ _, _ => by
    cases cause with
    | some c => simp [GoErr.causeOf, GoErr.size]
    | none => simp [GoErr.causeOf, GoErr.size]
  | .prop p, _ => by
    have h := PropErr.nodeCause_size_le p
    simp only [GoErr.causeOf, GoErr.size]
    omega

/-- The node Cause method of a PropError returns an error no larger than
the node itself. -/
theorem PropErr.nodeCause_size_le : ∀ p : PropErr, p.nodeCause.size ≤ p.size
  | .base w => by
    simp only [PropErr.nodeCause, PropErr.size]
    by_cases h : w.implementsCause = true
    · have := GoErr.causeOf_size_lt w h
      simp only [h, if_true]
      omega
    · simp only [h, if_false, GoErr.size]
      omega
  | .kv p _ _ => by
    have h := PropErr.nodeCause_size_le p
    simp only [PropErr.nodeCause, PropErr.size]
    omega
end

/-- Source: the free function Get.  If err is nil the key is absent; else
if err implements hasProps and the node-local Get finds the key, that
value is returned; else if err implements hasCause the lookup recurses on
the cause; otherwise the key is absent. -/
def Get (err : GoErr) (key : GoVal) : Option GoVal :=
  match err with
  | .nilErr => none
  | e =>
    match (if e.implementsProps then e.localGet key else none) with
    | some v => some v
    | none =>
      if h : e.implementsCause then Get e.causeOf key else none
termination_by err.size
decreasing_by exact GoErr.causeOf_size_lt e h

/-- Source: GetOptional.  Same as Get but collapses the found flag,
returning the Go nil interface (modelled none) when the key is absent. -/
def GetOptional (err : GoErr) (key : GoVal) : Option GoVal :=
  match Get err key with
  | some v => some v
  | none => none

/-- Source: From.  Returns a PropError that can be used to set properties
on err; the original err is not modified. -/
def From (err : GoErr) : PropErr := .base err

/-- Source: baseError.WithValue and keyValueError.WithValue: both return a
new keyValueError node whose embedded predecessor is the receiver. -/
def PropErr.withValue (e : PropErr) (key val : GoVal) : PropErr :=
  .kv e key val

/-- Source: the format-string construction at the top of formatInner: the
directive starts with a percent, then a plus when f.Flag(43) is set, else
a sharp when f.Flag(35) is set, then the verb rune is appended. -/
def pairSpec (f : FmtState) (c : Char) : FmtSpec :=
  if f.plus then ⟨true, false, c⟩
  else if f.sharp then ⟨false, true, c⟩
  else ⟨false, false, c⟩

/-- Model of the Go fmt rendering of one GoVal under one directive, for
the v-family verbs the package tests exercise: ints render as their
decimal form under every flag, strings render bare except under the sharp
flag, which produces the quoted Go-syntax form. -/
def renderVal (sp : FmtSpec) : GoVal → String
  | .vstr s => if sp.sharp then "\"" ++ s ++ "\"" else s
  | .vint n => toString n

mutual
/-- The Format method of a PropError (the fmt.Formatter entry point).
Source: baseError.Format delegates to formatBaseError; keyValueError.Format
writes an opening bracket, formatInner, a closing bracket and a space, then
formatBaseError. -/
def PropErr.fmtMethod : PropErr → FmtState → Char → String
  | .base w, f, c => (PropErr.base w).fmtBase f c
  | .kv p k v, f, c =>
    "[" ++ (PropErr.kv p k v).fmtInner f c ++ "] " ++
      (PropErr.kv p k v).fmtBase f c
termination_by p _ _ => (p.size, 1)
decreasing_by
  all_goals exact Prod.Lex.right _ (by omega)

/-- Source: formatBaseError.  keyValueError delegates to its embedded
predecessor; baseError delegates to the own Format method of the wrapped
error when it
implements fmt.Formatter, and otherwise prints it with fmt.Fprint, which
renders a nil error interface as the angle-bracketed nil marker and any
other plain error via its Error message. -/
def PropErr.fmtBase : PropErr → FmtState → Char → String
  | .base w, f, c =>
    match w with
    | .nilErr => "<nil>"
    | .plain m => m
    | .ext m _ _ _ fmtFn =>
      match fmtFn with
      | some fn => fn f c
      | none => m
    | .prop q => q.fmtMethod f c
  | .kv p _ _, f, c => p.fmtBase f c
termination_by p _ _ => (p.size, 0)
decreasing_by
  all_goals simp only [PropErr.size, GoErr.size]
  all_goals exact Prod.Lex.left _ _ (by omega)

/-- Source: formatInner.  Prints the own key and value of the node under the
directive built from the flags, then, when the predecessor is itself a
keyValueError, a comma and the formatInner of the predecessor.  The source only
ever calls formatInner on a keyValueError, so the base equation is never
reached. -/
def PropErr.fmtInner : PropErr → FmtState → Char → String
  | .base _, _, _ => ""
  | .kv p k v, f, c =>
    renderVal (pairSpec f c) k ++ "=" ++ renderVal (pairSpec f c) v ++
      (match p with
       | .kv p2 k2 v2 => "," ++ (PropErr.kv p2 k2 v2).fmtInner f c
       | .base _ => "")
termination_by p _ _ => (p.size, 0)
decreasing_by
  all_goals simp only [PropErr.size, GoErr.size]
  all_goals exact Prod.Lex.left _ _ (by omega)
end

/-- The key/value pairs carried by a decoration chain, newest first,
stopping at the terminal Base. -/
def PropErr.pairs : PropErr → List (GoVal × GoVal)
  | .base _ => []
  | .kv p k v => (k, v) :: p.pairs

/-- The terminal Base node of a decoration chain. -/
def PropErr.baseOf : PropErr → PropErr
  | .base w => .base w
  | .kv p _ _ => p.baseOf

/-- Applies a sequence of WithValue calls left to right, in the fluent
style of the package documentation (the last pair of the list is the
newest node of the resulting chain). -/
def decorate (e : PropErr) : List (GoVal × GoVal) → PropErr
  | [] => e
  | (k, v) :: rest => decorate (e.withValue k v) rest

/-- Spec-side rendering of a pair list under one directive: each pair as
key, equals sign, value, the pairs separated by commas. -/
def renderPairs (sp : FmtSpec) : List (GoVal × GoVal) → String
  | [] => ""
  | [(k, v)] => renderVal sp k ++ "=" ++ renderVal sp v
  | (k, v) :: kv2 :: rest =>
    renderVal sp k ++ "=" ++ renderVal sp v ++ "," ++
      renderPairs sp (kv2 :: rest)

/-- Whether the decoration chain terminates in a Base (through any nesting
of decorated errors) wrapping a non-nil error: the condition under which
the promoted Error method does not dereference nil. -/
def PropErr.wrapsNonNil : PropErr → Bool
  | .base .nilErr => false
  | .base (.plain _) => true
  | .base (.ext _ _ _ _ _) => true
  | .base (.prop q) => q.wrapsNonNil
  | .kv p _ _ => p.wrapsNonNil

theorem pairs_decorate (ps : List (GoVal × GoVal)) :
    ∀ e : PropErr, (decorate e ps).pairs = ps.reverse ++ e.pairs := by
  induction ps with
  | nil => intro e; simp [decorate]
  | cons kv rest ih =>
    intro e
    obtain ⟨k, v⟩ := kv
    simp [decorate, ih, PropErr.withValue, PropErr.pairs]

theorem errorMsgP_decorate (ps : List (GoVal × GoVal)) :
    ∀ e : PropErr, (decorate e ps).errorMsgP = e.errorMsgP := by
  induction ps with
  | nil => intro e; simp [decorate]
  | cons kv rest ih =>
    intro e
    obtain ⟨k, v⟩ := kv
    simp [decorate, ih, PropErr.withValue, PropErr.errorMsgP]

theorem baseOf_decorate (ps : List (GoVal × GoVal)) :
    ∀ e : PropErr, (decorate e ps).baseOf = e.baseOf := by
  induction ps with
  | nil => intro e; simp [decorate]
  | cons kv rest ih =>
    intro e
    obtain ⟨k, v⟩ := kv
    simp [decorate, ih, PropErr.withValue, PropErr.baseOf]

/-- The node Get method of any chain node is first-match lookup over the
own pairs of the chain, newest first, falling back to the delegation of
the terminal Base to the wrapped error. -/
theorem nodeGet_eq_assoc_pairs : ∀ (p : PropErr) (key : GoVal),
    p.nodeGet key =
      (match assocGet p.pairs key with
       | some v => some v
       | none => p.baseOf.nodeGet key)
  | .base w, key => by simp [PropErr.pairs, PropErr.baseOf, assocGet]
  | .kv p2 k v, key => by
    have ih := nodeGet_eq_assoc_pairs p2 key
    simp only [PropErr.nodeGet, PropErr.pairs, PropErr.baseOf, assocGet]
    by_cases h : key = k
    · simp [h]
    · simp [h, ih]

/-- formatBaseError ignores every key/value link: it is determined by the
terminal Base of the chain. -/
theorem fmtBase_eq_baseOf : ∀ (p : PropErr) (f : FmtState) (c : Char),
    p.fmtBase f c = p.baseOf.fmtBase f c
  | .base w, f, c => rfl
  | .kv p2 k v, f, c => by
    rw [PropErr.fmtBase, fmtBase_eq_baseOf p2 f c]; rfl

/-- formatInner renders exactly the pairs of the chain, newest to oldest, every
pair under the single directive built from the received flags and verb. -/
theorem fmtInner_eq_renderPairs : ∀ (p : PropErr) (k v : GoVal)
    (f : FmtState) (c : Char),
    (PropErr.kv p k v).fmtInner f c =
      renderPairs (pairSpec f c) ((k, v) :: p.pairs)
  | .base w, k, v, f, c => by
    simp [PropErr.fmtInner, PropErr.pairs, renderPairs]
  | .kv p2 k2 v2, k, v, f, c => by
    rw [PropErr.fmtInner]
    simp only [PropErr.pairs]
    rw [fmtInner_eq_renderPairs p2 k2 v2 f c]
    simp [renderPairs, String.append_assoc]

/-- When every Base of the chain wraps a non-nil error (possibly through
nested decorated errors), the promoted Error method returns a message and
does not panic. -/
theorem errorMsgP_isSome_of_wrapsNonNil : ∀ p : PropErr,
    p.wrapsNonNil = true → p.errorMsgP.isSome = true
  | .base .nilErr, h => by simp [PropErr.wrapsNonNil] at h
  | .base (.plain m), _ => rfl
  | .base (.ext m a b d e), _ => rfl
  | .base (.prop q), h => by
    have := errorMsgP_isSome_of_wrapsNonNil q (by
      simpa [PropErr.wrapsNonNil] using h)
    simpa [PropErr.errorMsgP, GoErr.errorMsg] using this
  | .kv p k v, h => by
    have := errorMsgP_isSome_of_wrapsNonNil p (by
      simpa [PropErr.wrapsNonNil] using h)
    simpa [PropErr.errorMsgP] using this

/-- The Format method of a key/value node produces one bracket section
holding the pairs of the whole chain, newest first under one directive,
then a closing bracket and space, then the wrapped-error formatting of the
terminal Base. -/
theorem fmtMethod_kv_eq (p : PropErr) (k v : GoVal) (f : FmtState)
    (c : Char) :
    (PropErr.kv p k v).fmtMethod f c =
      "[" ++ renderPairs (pairSpec f c) ((k, v) :: p.pairs) ++ "] " ++
        (PropErr.kv p k v).baseOf.fmtBase f c := by
  rw [PropErr.fmtMethod, fmtInner_eq_renderPairs, ← fmtBase_eq_baseOf]

/-- Claim C1: for every error value err (decorated or not) and every key,
the free function Get follows exactly these steps: if err is nil it
returns (absent, false); else if err implements the local-properties
capability and that node-local Get reports found, Get returns that value;
else if err implements the has-a-cause capability, Get returns the result
of recursing on the cause; otherwise it returns (absent, false). -/
theorem c1_get_algorithm (e : GoErr) (key : GoVal) :
    Get .nilErr key = none ∧
    (∀ v : GoVal, e.implementsProps = true → e.localGet key = some v →
      Get e key = some v) ∧
    ((e.implementsProps = true → e.localGet key = none) →
      e.implementsCause = true → Get e key = Get e.causeOf key) ∧
    ((e.implementsProps = true → e.localGet key = none) →
      e.implementsCause = false → Get e key = none) := by
  refine ⟨by simp [Get], ?_, ?_, ?_⟩
  · intro v hp hl
    cases e <;> simp_all [Get, GoErr.implementsProps]
  · intro hnone hc
    cases e <;> simp_all [Get, GoErr.implementsProps, GoErr.implementsCause]
  · intro hnone hc
    cases e <;> simp_all [Get, GoErr.implementsProps, GoErr.implementsCause]

/-- Witness for C1: a concrete third-party error carrying one pair, looked
up at its key through the step of the algorithm that consults node-local
properties. -/
theorem c1_witness :
    Get (.ext "m" (some [(.vstr "a", .vint 1)]) none none none) (.vstr "a")
      = some (.vint 1) :=
  (c1_get_algorithm _ _).2.1 (.vint 1) rfl rfl

/-- Claim C2: a later WithValue call with an existing key does not remove
the old pair from the chain (both pairs remain in the chain), but Get
always returns the newer one: with k bound to v1 on an inner node and to
v2 closer to the root of the query (any further decorations in between),
Get on the outer value returns v2 while Get on the inner value still
returns v1. -/
theorem c2_shadowing (e : PropErr) (extra : List (GoVal × GoVal))
    (k v1 v2 : GoVal) :
    Get (.prop ((decorate (e.withValue k v1) extra).withValue k v2)) k
      = some v2 ∧
    Get (.prop (e.withValue k v1)) k = some v1 ∧
    (k, v1) ∈ ((decorate (e.withValue k v1) extra).withValue k v2).pairs ∧
    (k, v2) ∈ ((decorate (e.withValue k v1) extra).withValue k v2).pairs := by
  refine ⟨?_, ?_, ?_, ?_⟩
  · simp [Get, GoErr.implementsProps, GoErr.localGet, PropErr.withValue,
      PropErr.nodeGet]
  · simp [Get, GoErr.implementsProps, GoErr.localGet, PropErr.withValue,
      PropErr.nodeGet]
  · simp [PropErr.withValue, PropErr.pairs, pairs_decorate]
  · simp [PropErr.withValue, PropErr.pairs]

/-- Counterexample to C3 as stated: the node-local Get of a key/value node
does consult its predecessor (here a two-link chain finds the older pair
through the newer node), and the Get of a Base over an error implementing
the local-properties capability is not always (absent, false). -/
theorem c3_counterexample :
    (PropErr.kv (.kv (.base .nilErr) (.vstr "a") (.vint 1))
        (.vstr "b") (.vint 2)).nodeGet (.vstr "a") = some (.vint 1) ∧
    (PropErr.base (.ext "m" (some [(.vstr "k", .vint 7)]) none none
        none)).nodeGet (.vstr "k") = some (.vint 7) := by
  constructor <;> rfl

/-- Claim C3 amended: the node-local Get of a key/value node checks its
own pair and then delegates to the predecessor, so it is first-match
lookup over the pairs of the chain falling back to the terminal Base; a
Base returns (absent, false) when its wrapped error is nil or does not
implement the local-properties capability, and delegates to the wrapped
error when it does; the node-local Get never walks the cause chain (the
last conjunct: a wrapped error with a cause holding the key but no local
properties still yields absent). -/
theorem c3_amended (p : PropErr) (w : GoErr) (key k2 v2 : GoVal)
    (m : String) :
    p.nodeGet key =
      (match assocGet p.pairs key with
       | some v => some v
       | none => p.baseOf.nodeGet key) ∧
    (PropErr.base .nilErr).nodeGet key = none ∧
    (PropErr.base (.plain m)).nodeGet key = none ∧
    (w.implementsProps = true →
      (PropErr.base w).nodeGet key = w.localGet key) ∧
    (PropErr.base (.ext m none
        (some (.prop (.kv (.base .nilErr) k2 v2))) none none)).nodeGet key
      = none := by
  refine ⟨nodeGet_eq_assoc_pairs p key, rfl, rfl, ?_, rfl⟩
  intro h
  simp [PropErr.nodeGet, h]

/-- Witness for the amended C3: a Base over a property-bearing error
delegates to the node-local Get of that error. -/
theorem c3_amended_witness :
    (PropErr.base (.ext "m" (some [(.vstr "x", .vint 3)]) none none
        none)).nodeGet (.vstr "x")
      = (GoErr.ext "m" (some [(.vstr "x", .vint 3)]) none none
          none).localGet (.vstr "x") :=
  (c3_amended (.base .nilErr) _ (.vstr "x") (.vstr "x") (.vint 0)
    "m").2.2.2.1 rfl

/-- Claim C4: for every error y, key k and value v, Get immediately after
WithValue always yields (v, true), no matter what y already contained. -/
theorem c4_roundtrip (y : PropErr) (k v : GoVal) :
    Get (.prop (y.withValue k v)) k = some v := by
  simp [Get, GoErr.implementsProps, GoErr.localGet, PropErr.withValue,
    PropErr.nodeGet]

/-- Claim C5: WithValue is non-destructive: building b from a by a second
WithValue produces a new node whose predecessor is a, and querying a still
yields v1 both through the free Get and through the node-local Get (the
model has no mutation, so a is untouched by the construction of b). -/
theorem c5_nondestructive (e : GoErr) (k v1 v2 : GoVal) :
    ((From e).withValue k v1).withValue k v2
      = PropErr.kv ((From e).withValue k v1) k v2 ∧
    Get (.prop ((From e).withValue k v1)) k = some v1 ∧
    ((From e).withValue k v1).nodeGet k = some v1 := by
  refine ⟨rfl, ?_, ?_⟩
  · simp [Get, GoErr.implementsProps, GoErr.localGet, PropErr.withValue,
      PropErr.nodeGet]
  · simp [PropErr.withValue, PropErr.nodeGet]

/-- Claim C6: for every underlying error e and any sequence of WithValue
calls, the Error message of the decorated error is identical to the Error
message of e: neither the Base nor any key/value link alters it, and keys
and values never enter it. -/
theorem c6_message (e : GoErr) (ps : List (GoVal × GoVal)) :
    (decorate (From e) ps).errorMsgP = e.errorMsg := by
  rw [errorMsgP_decorate]; rfl

/-- Claim C7: Format on a decorated error with at least one key/value link
writes an opening bracket, its own pair, then each ancestor pair newest to
oldest separated by commas (stopping at the first Base), then a closing
bracket and space, then the wrapped-error formatting of the terminal Base;
one bracket section per value however many links are stacked.  Concretely,
wrapping a plain cause and adding a as 1 then b as 2 renders plainly as
the bracket b=2,a=1 followed by a space and the plain cause message. -/
theorem c7_format (p : PropErr) (k v : GoVal) (f : FmtState) (c : Char)
    (m : String) :
    (PropErr.kv p k v).fmtMethod f c =
      "[" ++ renderPairs (pairSpec f c) ((k, v) :: p.pairs) ++ "] " ++
        (PropErr.kv p k v).baseOf.fmtBase f c ∧
    (PropErr.kv (.kv (From (.plain m)) (.vstr "a") (.vint 1))
        (.vstr "b") (.vint 2)).fmtMethod ⟨false, false⟩ 'v'
      = "[b=2,a=1] " ++ m := by
  refine ⟨fmtMethod_kv_eq p k v f c, ?_⟩
  rw [fmtMethod_kv_eq]
  simp only [From, PropErr.baseOf, PropErr.fmtBase]
  rfl

/-- Counterexample to C8 as stated: when the plus and sharp flags are both
set at once, the directive applied to the key/value pairs is not the full
flag combination (the sharp flag is dropped, so a string value renders
bare in the output although its rendering under the both-flag directive is
quoted), while the wrapped error receives both flags. -/
theorem c8_counterexample :
    pairSpec ⟨true, true⟩ 'v' ≠ ⟨true, true, 'v'⟩ ∧
    (PropErr.kv (From (.plain "boom")) (.vstr "k") (.vstr "a")).fmtMethod
        ⟨true, true⟩ 'v' = "[k=a] boom" ∧
    renderVal ⟨true, true, 'v'⟩ (.vstr "a") = "\"a\"" := by
  refine ⟨by decide, ?_, rfl⟩
  rw [fmtMethod_kv_eq]
  simp only [From, PropErr.baseOf, PropErr.fmtBase]
  rfl

/-- Claim C8 amended: the two detail flags select how keys, values and the
wrapped error are rendered; every pair of the chain is rendered under the
one directive built from the received flags and verb, which equals the
received flag combination whenever at most one flag is set (when both are
set, the plus flag takes precedence for the pairs); the flags and verb are
passed unchanged into the Format call of the terminal wrapped error, and
key/value links never alter what the wrapped error receives. -/
theorem c8_amended (p : PropErr) (k v : GoVal) (f : FmtState) (c : Char)
    (m : String) (props : Option (List (GoVal × GoVal)))
    (cs : Option GoErr) (st : Option (Option Nat))
    (fn : FmtState → Char → String) :
    (PropErr.kv p k v).fmtInner f c
      = renderPairs (pairSpec f c) ((k, v) :: p.pairs) ∧
    (f.plus = false ∨ f.sharp = false →
      pairSpec f c = ⟨f.plus, f.sharp, c⟩) ∧
    (PropErr.base (.ext m props cs st (some fn))).fmtBase f c = fn f c ∧
    (PropErr.kv p k v).fmtBase f c = p.fmtBase f c := by
  refine ⟨fmtInner_eq_renderPairs p k v f c, ?_, ?_, ?_⟩
  · intro h
    obtain ⟨fp, fs⟩ := f
    cases fp <;> cases fs <;> simp_all [pairSpec]
  · simp [PropErr.fmtBase]
  · rw [PropErr.fmtBase]

/-- Witness for the amended C8: with only the sharp flag set the pair
directive is exactly the received flag combination. -/
theorem c8_amended_witness :
    pairSpec ⟨false, true⟩ 'v' = ⟨false, true, 'v'⟩ :=
  (c8_amended (.base .nilErr) (.vstr "k") (.vint 1) ⟨false, true⟩ 'v'
    "m" none none none (fun _ _ => "s")).2.1 (Or.inl rfl)

/-- Counterexample to C9 as stated: the Error method of a decorated error
built from the nil error panics (the promoted call dereferences the nil
embedded interface; the none result models the panic), so not every listed
operation is panic-free for every input. -/
theorem c9_counterexample : (GoErr.prop (From .nilErr)).errorMsg = none :=
  rfl

/-- Claim C9 amended: every operation of the library delivers its result
through normal signaling, with the single exception of the Error method on
a chain whose Base wraps nil: whenever every Base in the chain wraps a
non-nil error the Error method returns a message, and even on the nil
Base the Cause, Stacktrace, node-local Get, Format and free Get operations
return through normal signaling. -/
theorem c9_amended (p : PropErr) (f : FmtState) (c : Char) (k : GoVal) :
    (p.wrapsNonNil = true → p.errorMsgP.isSome = true) ∧
    (From .nilErr).nodeCause = .nilErr ∧
    (From .nilErr).nodeStack = none ∧
    (From .nilErr).nodeGet k = none ∧
    (From .nilErr).fmtMethod f c = "<nil>" ∧
    Get (.prop (From .nilErr)) k = none := by
  refine ⟨errorMsgP_isSome_of_wrapsNonNil p, rfl, rfl, rfl, ?_, ?_⟩
  · simp [From, PropErr.fmtMethod, PropErr.fmtBase]
  · simp [From, Get, GoErr.implementsProps, GoErr.localGet,
      PropErr.nodeGet, GoErr.implementsCause, GoErr.causeOf,
      PropErr.nodeCause]

/-- Witness for the amended C9: a chain over a non-nil plain error has a
message. -/
theorem c9_amended_witness :
    ((From (.plain "x")).errorMsgP).isSome = true :=
  (c9_amended (From (.plain "x")) ⟨false, false⟩ 'v' (.vstr "k")).1 rfl

/-- Claim C10: From accepts a nil underlying error; all capability
assertions on the nil wrapped error fail, the Cause of the Base is nil,
the node-local Get of the Base is (absent, false), and for every key the
free Get on the decorated nil error returns (absent, false) by
terminating at the nil-error base case. -/
theorem c10_from_nil (k : GoVal) :
    Get (.prop (From .nilErr)) k = none ∧
    GoErr.nilErr.implementsProps = false ∧
    GoErr.nilErr.implementsCause = false ∧
    GoErr.nilErr.implementsStack = false ∧
    GoErr.nilErr.implementsFormatter = false ∧
    (From .nilErr).nodeCause = .nilErr ∧
    (From .nilErr).nodeGet k = none ∧
    Get .nilErr k = none := by
  refine ⟨?_, rfl, rfl, rfl, rfl, rfl, rfl, by simp [Get]⟩
  simp [From, Get, GoErr.implementsProps, GoErr.localGet,
    PropErr.nodeGet, GoErr.implementsCause, GoErr.causeOf,
    PropErr.nodeCause]

end Errprops
